import Mathlib

/-!
Shallow embedding of the in-process message mailbox, the HTTP delivery
endpoint, the startup configuration check, the interactive session state
machine and the project-file loader of the ssh personal-website server
(src/main.go and src/server.go), together with theorems settling the
specification claims about them.
-/

namespace SshSite

/-! ### Models of the Go standard-library string helpers used by the code

The Go code uses `strings.TrimSpace`, `strings.Split`, `strings.CutPrefix`
and `strconv.Atoi`.  They are modelled here as structurally recursive
functions over the character list of a string, so that every definition
evaluates inside the kernel. -/

/-- Model of the whitespace class of Go `strings.TrimSpace` for the
characters that occur in this program. -/
def isSpaceChar (c : Char) : Bool :=
  c == ' ' || c == '\t' || c == '\n' || c == '\r'

/-- Trim a character list on both ends. -/
def trimChars (l : List Char) : List Char :=
  ((l.dropWhile isSpaceChar).reverse.dropWhile isSpaceChar).reverse

/-- Model of Go `strings.TrimSpace`. -/
def TrimSpace (s : String) : String :=
  ⟨trimChars s.data⟩

/-- Fuelled splitter on a non-empty separator sequence, scanning left to
right without overlap, as Go `strings.Split` does. -/
def splitSeqFuel (sep : List Char) : Nat → List Char → List (List Char)
  | 0, l => [l]
  | fuel + 1, l =>
    match l with
    | [] => [[]]
    | c :: rest =>
      if sep.isPrefixOf l then
        [] :: splitSeqFuel sep fuel (l.drop sep.length)
      else
        match splitSeqFuel sep fuel rest with
        | [] => [[c]]
        | h :: t => (c :: h) :: t

/-- Model of Go `strings.Split s sep` for a non-empty separator. -/
def Split (s sep : String) : List String :=
  (splitSeqFuel sep.data (s.data.length + 1) s.data).map (fun l => ⟨l⟩)

/-- Decimal digit test. -/
def isDigitChar (c : Char) : Bool :=
  48 ≤ c.toNat && c.toNat ≤ 57

/-- Model of Go `strconv.Atoi`: optional sign followed by at least one
digit, `none` on any other input. -/
def atoi (s : String) : Option Int :=
  let signed :=
    if s.data.take 1 = ['-'] then ((-1 : Int), s.data.drop 1)
    else if s.data.take 1 = ['+'] then ((1 : Int), s.data.drop 1)
    else ((1 : Int), s.data)
  if signed.2 ≠ [] ∧ signed.2.all isDigitChar then
    some (signed.1 * (signed.2.foldl (fun n c => 10 * n + (c.toNat - 48)) 0 : Nat))
  else none

/-! ### The mailbox (src/main.go lines 58-98) -/

/-- `Message` from src/main.go: sender, body and creation timestamp.  The
timestamp is modelled as a natural number. -/
structure Message where
  From : String
  Content : String
  Timestamp : Nat
deriving Repr, DecidableEq

/-- `addMessage` from src/main.go: appends a new message with the current
timestamp (passed here explicitly as `now`) to the end of the queue. -/
def addMessage (msgs : List Message) (From Content : String) (now : Nat) : List Message :=
  msgs ++ [{ From := From, Content := Content, Timestamp := now }]

/-- `getMessages` from src/main.go: returns a copy of the queue. -/
def getMessages (msgs : List Message) : List Message :=
  msgs

/-- `removeMessage` from src/main.go: scans the queue in insertion order,
removes the first entry whose content and sender both match, then stops
(`break`).  The Go function has no return value; the new queue is the
whole result. -/
def removeMessage (From Content : String) : List Message → List Message
  | [] => []
  | m :: rest =>
    if m.Content = Content ∧ m.From = From then rest
    else m :: removeMessage From Content rest

/-! ### The delivery endpoint (src/server.go lines 31-53) -/

/-- The observable part of an HTTP response produced by `handler`. -/
structure Response where
  status : Nat
  contentType : Option String
  body : String
deriving Repr, DecidableEq

/-- The body written by `fmt.Fprintf(w, "%s---%s---%s", ...)` in
src/server.go line 47; the timestamp rendering is modelled by
`Nat.repr`. -/
def formatMessage (m : Message) : String :=
  m.From ++ "---" ++ m.Content ++ "---" ++ Nat.repr m.Timestamp

/-- `handler` from src/server.go: checks the `secret` query parameter
against the configured key, then either rejects with 401, answers 204 on
an empty mailbox, or answers 200 with the formatted oldest message after
removing it by its sender and body.  Returns the response together with
the mailbox state after the call. -/
def handler (secretKey auth : String) (msgs0 : List Message) : Response × List Message :=
  if auth ≠ secretKey then
    ({ status := 401, contentType := none, body := "" }, msgs0)
  else
    match getMessages msgs0 with
    | [] => ({ status := 204, contentType := none, body := "" }, msgs0)
    | first :: _ =>
      ({ status := 200, contentType := some "text/plain", body := formatMessage first },
        removeMessage first.From first.Content msgs0)

/-- Build a mailbox by a sequence of `addMessage` calls
(sender, body, timestamp), starting from the empty queue. -/
def submitAll (subs : List (String × String × Nat)) : List Message :=
  subs.foldl (fun msgs s => addMessage msgs s.1 s.2.1 s.2.2) []

/-- Repeatedly call `handler` with the correct secret, collecting the 200
responses in order, stopping at the first non-200 response or when the
fuel runs out.  Returns the collected responses and the final mailbox. -/
def drainAll (secretKey : String) : Nat → List Message → List Response × List Message
  | 0, msgs => ([], msgs)
  | fuel + 1, msgs =>
    let step := handler secretKey secretKey msgs
    if step.1.status = 200 then
      let rest := drainAll secretKey fuel step.2
      (step.1 :: rest.1, rest.2)
    else ([], step.2)

/-! ### Startup configuration (src/main.go lines 51-56 and 100-104) -/

/-- The default value of the `sK` flag (src/main.go line 55): the value of
the `SECRET_KEY` environment variable. -/
def secretKeyDefault (env : String) : String :=
  env

/-- Whether `main` gets past the startup check (src/main.go lines
100-104).  The check `*secretKey == ""` runs BEFORE `flag.Parse()`, so the
value inspected is the flag default, i.e. the environment value; a secret
supplied on the command line (`flagArg`) is not visible to the check. -/
def startupOk (env : String) (_flagArg : Option String) : Bool :=
  decide (secretKeyDefault env ≠ "")

/-- The secret actually in effect once `flag.Parse()` has run: the command
line value when given, otherwise the flag default. -/
def effectiveSecret (env : String) (flagArg : Option String) : String :=
  flagArg.getD (secretKeyDefault env)

/-! ### Project records (src/main.go lines 246-302) -/

/-- `Projects` from src/main.go: one loaded project record. -/
structure Projects where
  ProjectTitle : String
  ProjectContent : String
  ProjectNumber : Int
deriving Repr, DecidableEq

/-- Accumulator for the per-record line loop of `loadProjects`. -/
structure RecordAcc where
  ProjectTitle : String
  ProjectNumber : Int
  contentLines : List String
deriving Repr, DecidableEq

/-- One iteration of the line loop in `loadProjects` (src/main.go lines
268-279): the line is trimmed; a `Title:` line sets the title (trimmed), a
`Number:` line sets the number via `strconv.Atoi` with failures defaulting
to zero, and otherwise the line is accumulated as content when it is
non-empty or its index exceeds 2. -/
def parseLine (acc : RecordAcc) (i : Nat) (line0 : String) : RecordAcc :=
  let line := TrimSpace line0
  if ("Title:" : String).data.isPrefixOf line.data then
    { acc with ProjectTitle := TrimSpace ⟨line.data.drop 6⟩ }
  else if ("Number:" : String).data.isPrefixOf line.data then
    { acc with ProjectNumber := (atoi (TrimSpace ⟨line.data.drop 7⟩)).getD 0 }
  else if line ≠ "" ∨ i > 2 then
    { acc with contentLines := acc.contentLines ++ [line] }
  else acc

/-- Parse one record text of `loadProjects`: trim, split into lines, run
the line loop, and join the accumulated content lines with newlines,
trimmed. -/
def parseRecord (text : String) : Projects :=
  let lines := Split (TrimSpace text) "\n"
  let acc := lines.enum.foldl (fun a p => parseLine a p.1 p.2)
    { ProjectTitle := "", ProjectNumber := 0, contentLines := [] }
  { ProjectTitle := acc.ProjectTitle,
    ProjectContent := TrimSpace (String.intercalate "\n" acc.contentLines),
    ProjectNumber := acc.ProjectNumber }

/-- One iteration of the record loop of `loadProjects` (src/main.go lines
259-284): skip record texts that trim to the empty string, parse the
record, and keep it only when its title is non-empty. -/
def loadStep (projects : List Projects) (text : String) : List Projects :=
  if TrimSpace text = "" then projects
  else
    let project := parseRecord text
    if project.ProjectTitle ≠ "" then projects ++ [project] else projects

/-- `loadProjects` from src/main.go, applied to the file contents: split
the blob on the literal delimiter `---` and run the record loop. -/
def loadProjects (data : String) : List Projects :=
  (Split data "---").foldl loadStep []

/-- Modelled from the spec: the spec's line rule reads "all other
non-empty lines (or any line after the first two) accumulate as the
body", i.e. a line is accumulated when it is non-empty or its index is at
least 2; everything else is as in `parseLine`. -/
def parseLineSpec (acc : RecordAcc) (i : Nat) (line0 : String) : RecordAcc :=
  let line := TrimSpace line0
  if ("Title:" : String).data.isPrefixOf line.data then
    { acc with ProjectTitle := TrimSpace ⟨line.data.drop 6⟩ }
  else if ("Number:" : String).data.isPrefixOf line.data then
    { acc with ProjectNumber := (atoi (TrimSpace ⟨line.data.drop 7⟩)).getD 0 }
  else if line ≠ "" ∨ i > 1 then
    { acc with contentLines := acc.contentLines ++ [line] }
  else acc

/-- Modelled from the spec: `loadProjects` with the spec's wording of the
line-accumulation rule (`parseLineSpec` instead of `parseLine`). -/
def loadProjectsSpec (data : String) : List Projects :=
  (Split data "---").foldl (fun projects text =>
    if TrimSpace text = "" then projects
    else
      let lines := Split (TrimSpace text) "\n"
      let acc := lines.enum.foldl (fun a p => parseLineSpec a p.1 p.2)
        { ProjectTitle := "", ProjectNumber := 0, contentLines := [] }
      let project : Projects :=
        { ProjectTitle := acc.ProjectTitle,
          ProjectContent := TrimSpace (String.intercalate "\n" acc.contentLines),
          ProjectNumber := acc.ProjectNumber }
      if project.ProjectTitle ≠ "" then projects ++ [project] else projects) []

/-! ### The session state machine (src/main.go lines 155-244 and 303-438)

The fields of the Go `model` that carry session-machine state are kept;
the rendering-only widget internals (styles, viewport scroll position,
widget focus) are out of scope.  The text-entry widgets are modelled by
their string values, and the widget reaction to a forwarded key is an
arbitrary function passed as a parameter (`ta` for the message textarea,
`ti` for the name input, `lu` for the projects-list cursor). -/

/-- The session-machine fields of the Go `model`. -/
structure Model where
  state : String
  messageSent : Bool
  editingName : Bool
  username : String
  messageInput : String
  nameInput : String
  inProjectsList : Bool
  selectedPost : Option Projects
  listIndex : Nat
  projectsPosts : List Projects
deriving Repr, DecidableEq

/-- The model built in `teaHandler` (src/main.go lines 196-219): the
display name is the connection's username, or "anonymous" when that is
empty; `state` is not assigned and therefore holds the Go zero value
`""`. -/
def initialModel (user : String) (posts : List Projects) : Model :=
  { state := "",
    messageSent := false,
    editingName := false,
    username := if user = "" then "anonymous" else user,
    messageInput := "",
    nameInput := "",
    inProjectsList := true,
    selectedPost := none,
    listIndex := 0,
    projectsPosts := posts }

/-- The result of one `Update` step on a key event: the new model, the
`addMessage` calls made (sender, body), and whether `tea.Quit` was
returned. -/
structure UpdateResult where
  model : Model
  submitted : List (String × String)
  quit : Bool
deriving Repr, DecidableEq

/-- The message-composition key handling (src/main.go lines 319-365),
reached when `state == "messages"` and the sent flag is clear; every one
of its branches returns immediately. -/
def updateMessages (ta ti : String → String → String) (m : Model) (key : String) :
    UpdateResult :=
  if m.editingName then
    if key = "ctrl+c" then { model := m, submitted := [], quit := true }
    else if key = "enter" ∨ key = "esc" then
      let m1 := if TrimSpace m.nameInput ≠ "" then
          { m with username := TrimSpace m.nameInput } else m
      { model := { m1 with editingName := false }, submitted := [], quit := false }
    else
      { model := { m with nameInput := ti m.nameInput key }, submitted := [],
        quit := false }
  else
    if key = "ctrl+c" then { model := m, submitted := [], quit := true }
    else if key = "esc" then
      { model := { m with state := "home", messageInput := "" }, submitted := [],
        quit := false }
    else if key = "ctrl+n" then
      { model := { m with editingName := true, nameInput := m.username },
        submitted := [], quit := false }
    else if key = "ctrl+s" then
      let content := TrimSpace m.messageInput
      if content ≠ "" then
        { model := { m with messageSent := true, messageInput := "" },
          submitted := [(m.username, content)], quit := false }
      else { model := m, submitted := [], quit := false }
    else
      { model := { m with messageInput := ta m.messageInput key }, submitted := [],
        quit := false }

/-- The model transformation of the global key switch (src/main.go lines
367-424), excluding the quit keys.  Scroll keys only move the viewport,
which is out of scope, so they leave the modelled fields unchanged. -/
def navModel (m : Model) (key : String) : Model :=
  if key = "j" ∨ key = "down" ∨ key = "k" ∨ key = "up" ∨ key = "d" ∨ key = "u" ∨
      key = "g" ∨ key = "G" then m
  else if key = "o" then { m with state := "home" }
  else if key = "backspace" then
    if m.state = "projects" ∧ m.inProjectsList = false then
      { m with inProjectsList := true, selectedPost := none }
    else m
  else if key = "b" then { m with state := "blog" }
  else if key = "p" then { m with state := "projects", inProjectsList := true }
  else if key = "c" then { m with state := "contact" }
  else if key = "m" then
    { m with state := "messages", messageSent := false, editingName := false }
  else if key = "enter" then
    if m.state = "projects" ∧ m.inProjectsList then
      match m.projectsPosts.get? m.listIndex with
      | some p => { m with selectedPost := some p, inProjectsList := false }
      | none => m
    else m
  else
    if m.state = "projects" ∧ m.inProjectsList then
      match atoi key with
      | some num =>
        if 0 ≤ num ∧ num < (m.projectsPosts.length : Int) then
          { m with
            selectedPost := m.projectsPosts.get? num.toNat
            inProjectsList := false }
        else m
      | none => m
    else m

/-- The global key handling (src/main.go lines 367-424): `q`/`ctrl+c`
return immediately with `tea.Quit`; every other key goes through the key
switch (`navModel`) and then the trailing projects-widget update
(src/main.go lines 426-436). -/
def updateGlobal (lu : Nat → String → Nat) (m : Model) (key : String) : UpdateResult :=
  if key = "q" ∨ key = "ctrl+c" then { model := m, submitted := [], quit := true }
  else
    let m1 := navModel m key
    let m2 :=
      if m1.state = "projects" ∧ m1.inProjectsList then
        { m1 with listIndex := lu m1.listIndex key } else m1
    { model := m2, submitted := [], quit := false }

/-- `Update` (src/main.go lines 307-438) restricted to key events; window
resize events only recompute widget geometry, which is out of scope. -/
def update (ta ti : String → String → String) (lu : Nat → String → Nat)
    (m : Model) (key : String) : UpdateResult :=
  if m.state = "messages" ∧ m.messageSent = false then updateMessages ta ti m key
  else updateGlobal lu m key

/-! ### Helper lemmas about the mailbox and the endpoint -/

/-- The first entry always matches its own sender and body, so removing by
the head's identity removes exactly the head. -/
lemma removeMessage_self_head (m : Message) (rest : List Message) :
    removeMessage m.From m.Content (m :: rest) = rest := by
  simp [removeMessage]

lemma handler_nil (secretKey : String) :
    handler secretKey secretKey []
      = ({ status := 204, contentType := none, body := "" }, []) := by
  simp [handler, getMessages]

lemma handler_cons (secretKey : String) (m : Message) (rest : List Message) :
    handler secretKey secretKey (m :: rest)
      = ({ status := 200, contentType := some "text/plain", body := formatMessage m },
          rest) := by
  simp [handler, getMessages, removeMessage_self_head]

lemma drainAll_drains (secretKey : String) :
    ∀ msgs : List Message,
      drainAll secretKey msgs.length msgs
        = (msgs.map (fun m =>
            { status := 200, contentType := some "text/plain", body := formatMessage m }),
          []) := by
  intro msgs
  induction msgs with
  | nil => simp [drainAll, List.length_nil]
  | cons m rest ih =>
    simp only [List.length_cons, drainAll, handler_cons]
    simp [ih]

lemma submitAll_go (subs : List (String × String × Nat)) :
    ∀ acc : List Message,
      subs.foldl (fun msgs s => addMessage msgs s.1 s.2.1 s.2.2) acc
        = acc ++ subs.map (fun s => { From := s.1, Content := s.2.1, Timestamp := s.2.2 }) := by
  induction subs with
  | nil => intro acc; simp
  | cons s rest ih =>
    intro acc
    rw [List.foldl_cons, ih]
    simp [addMessage]

lemma submitAll_eq_map (subs : List (String × String × Nat)) :
    submitAll subs
      = subs.map (fun s => { From := s.1, Content := s.2.1, Timestamp := s.2.2 }) := by
  simpa [submitAll] using submitAll_go subs []

/-! ### Claim theorems: mailbox and delivery endpoint -/

/-- C1.  Any mailbox built from a sequence of submissions with non-empty
trimmed bodies is drained by repeated take-next calls (peek the first
entry, remove it by sender and body, return it) in exactly the insertion
order, the mailbox ends empty, and the next call answers 204 (no
content). -/
theorem mailbox_fifo_drain (secret : String) (subs : List (String × String × Nat))
    (_hbodies : ∀ s ∈ subs, TrimSpace s.2.1 ≠ "") :
    (drainAll secret (submitAll subs).length (submitAll subs)).1
      = subs.map (fun s =>
          { status := 200, contentType := some "text/plain",
            body := s.1 ++ "---" ++ s.2.1 ++ "---" ++ Nat.repr s.2.2 }) ∧
    (drainAll secret (submitAll subs).length (submitAll subs)).2 = [] ∧
    (handler secret secret (drainAll secret (submitAll subs).length (submitAll subs)).2).1
      = { status := 204, contentType := none, body := "" } := by
  have hd := drainAll_drains secret (submitAll subs)
  refine ⟨?_, ?_, ?_⟩
  · rw [hd]
    rw [submitAll_eq_map]
    simp [formatMessage]
  · rw [hd]
  · rw [hd]
    simpa using congrArg Prod.fst (handler_nil secret)

/-- C1 witness: the concrete scenario Submit("alice","hello"),
Submit("bob","world"), then draining: alice's message first, bob's second,
then 204. -/
theorem mailbox_fifo_drain_witness :
    (∀ s ∈ ([("alice", "hello", 1), ("bob", "world", 2)] : List (String × String × Nat)),
      TrimSpace s.2.1 ≠ "") ∧
    (drainAll "s3cret"
        (submitAll [("alice", "hello", 1), ("bob", "world", 2)]).length
        (submitAll [("alice", "hello", 1), ("bob", "world", 2)])).1
      = [{ status := 200, contentType := some "text/plain", body := "alice---hello---1" },
         { status := 200, contentType := some "text/plain", body := "bob---world---2" }] ∧
    (drainAll "s3cret"
        (submitAll [("alice", "hello", 1), ("bob", "world", 2)]).length
        (submitAll [("alice", "hello", 1), ("bob", "world", 2)])).2 = [] ∧
    (handler "s3cret" "s3cret"
        (drainAll "s3cret"
          (submitAll [("alice", "hello", 1), ("bob", "world", 2)]).length
          (submitAll [("alice", "hello", 1), ("bob", "world", 2)])).2).1
      = { status := 204, contentType := none, body := "" } := by
  have h := mailbox_fifo_drain "s3cret" [("alice", "hello", 1), ("bob", "world", 2)]
    (by decide)
  exact ⟨by decide, h.1.trans (by decide), h.2.1, h.2.2⟩

/-- C2 counterexample.  The Go `removeMessage` has no return value at all:
its entire observable result is the new queue, and a call that removes an
entry and a call that removes nothing can produce identical results, so no
returned boolean reports whether a removal occurred. -/
theorem removeMessage_returns_no_removal_flag :
    removeMessage "alice" "hello"
        [{ From := "alice", Content := "hello", Timestamp := 0 }] = ([] : List Message) ∧
    removeMessage "alice" "hello" ([] : List Message) = ([] : List Message) := by
  decide

/-- C2 (amended).  `removeMessage` scans in insertion order and removes at
most the first exact sender+body match, even when multiple identical pairs
exist; when no entry matches, nothing is removed.  (The function returns
no removal indicator.) -/
theorem removeMessage_at_most_one_first_match (From Content : String) :
    (∀ (pre : List Message) (m : Message) (post : List Message),
      (∀ x ∈ pre, ¬(x.Content = Content ∧ x.From = From)) →
      (m.Content = Content ∧ m.From = From) →
      removeMessage From Content (pre ++ m :: post) = pre ++ post) ∧
    (∀ msgs : List Message, (∀ x ∈ msgs, ¬(x.Content = Content ∧ x.From = From)) →
      removeMessage From Content msgs = msgs) := by
  constructor
  · intro pre
    induction pre with
    | nil =>
      intro m post _ hm
      simp [removeMessage, hm.1, hm.2]
    | cons x pre ih =>
      intro m post hpre hm
      have hx : ¬(x.Content = Content ∧ x.From = From) := hpre x (by simp)
      have hrec := ih m post (fun y hy => hpre y (by simp [hy])) hm
      simp only [List.cons_append, removeMessage, if_neg hx]
      exact congrArg (fun l => x :: l) hrec
  · intro msgs
    induction msgs with
    | nil => intro _; rfl
    | cons x rest ih =>
      intro h
      have hx : ¬(x.Content = Content ∧ x.From = From) := h x (by simp)
      simp only [removeMessage, if_neg hx]
      rw [ih (fun y hy => h y (by simp [hy]))]

/-- C2 witness: with two identical ("alice","hello") entries queued, a
single removal call deletes only the first of them. -/
theorem removeMessage_at_most_one_first_match_witness :
    removeMessage "alice" "hello"
        [{ From := "alice", Content := "hello", Timestamp := 0 },
         { From := "alice", Content := "hello", Timestamp := 1 }]
      = [{ From := "alice", Content := "hello", Timestamp := 1 }] := by
  have h := (removeMessage_at_most_one_first_match "alice" "hello").1
    [] { From := "alice", Content := "hello", Timestamp := 0 }
    [{ From := "alice", Content := "hello", Timestamp := 1 }]
    (by simp) (by simp)
  simpa using h

/-- C3.  The startup check `*secretKey == ""` runs before `flag.Parse()`,
so it only sees the environment value: a non-empty secret supplied with
the `-sK` flag does not prevent the panic, and conversely a non-empty
environment value lets the process start even when the flag then sets the
effective secret to the empty string. -/
theorem startup_check_precedes_flag_parse :
    startupOk "" (some "s3cret") = false ∧
    effectiveSecret "" (some "s3cret") = "s3cret" ∧
    ("s3cret" : String) ≠ "" ∧
    startupOk "x" (some "") = true ∧
    effectiveSecret "x" (some "") = "" := by
  decide

/-- C4.  A request whose secret differs from the configured one gets
status 401, no content type, an empty body, and the mailbox it leaves
behind is exactly the mailbox it found. -/
theorem handler_wrong_secret_unauthorized (secretKey auth : String)
    (msgs : List Message) (h : auth ≠ secretKey) :
    handler secretKey auth msgs
      = ({ status := 401, contentType := none, body := "" }, msgs) := by
  simp [handler, h]

/-- C4 witness at a concrete wrong secret and non-empty mailbox. -/
theorem handler_wrong_secret_unauthorized_witness :
    handler "s3cret" "wrong"
        [{ From := "alice", Content := "hello", Timestamp := 1 }]
      = ({ status := 401, contentType := none, body := "" },
         [{ From := "alice", Content := "hello", Timestamp := 1 }]) := by
  exact handler_wrong_secret_unauthorized "s3cret" "wrong"
    [{ From := "alice", Content := "hello", Timestamp := 1 }] (by decide)

/-- C5.  With the correct secret: an empty mailbox gives 204 with empty
body and no mutation; a non-empty mailbox gives 200, content type
text/plain, body `<sender>---<body>---<timestamp>` for the oldest entry,
and exactly that oldest entry is removed. -/
theorem handler_correct_secret_take (secretKey : String) (msgs : List Message) :
    (msgs = [] →
      handler secretKey secretKey msgs
        = ({ status := 204, contentType := none, body := "" }, msgs)) ∧
    (∀ (first : Message) (rest : List Message), msgs = first :: rest →
      handler secretKey secretKey msgs
        = ({ status := 200, contentType := some "text/plain",
             body := formatMessage first }, rest)) := by
  constructor
  · intro h
    subst h
    exact handler_nil secretKey
  · intro first rest h
    subst h
    exact handler_cons secretKey first rest

/-- C5 witness: both branches at concrete mailboxes. -/
theorem handler_correct_secret_take_witness :
    handler "s3cret" "s3cret" []
      = ({ status := 204, contentType := none, body := "" }, []) ∧
    handler "s3cret" "s3cret"
        [{ From := "alice", Content := "hello", Timestamp := 1 },
         { From := "bob", Content := "world", Timestamp := 2 }]
      = ({ status := 200, contentType := some "text/plain",
           body := "alice---hello---1" },
         [{ From := "bob", Content := "world", Timestamp := 2 }]) := by
  refine ⟨(handler_correct_secret_take "s3cret" []).1 rfl, ?_⟩
  have h := (handler_correct_secret_take "s3cret"
      [{ From := "alice", Content := "hello", Timestamp := 1 },
       { From := "bob", Content := "world", Timestamp := 2 }]).2
    { From := "alice", Content := "hello", Timestamp := 1 }
    [{ From := "bob", Content := "world", Timestamp := 2 }] rfl
  exact h.trans (by decide)

/-- C9.  Removal by identity either leaves the mailbox exactly unchanged
(when no entry matches) or removes precisely one entry — the first match —
keeping every other entry unchanged and in its original relative order. -/
theorem removeMessage_frame (From Content : String) (msgs : List Message) :
    (removeMessage From Content msgs = msgs ∧
      ∀ x ∈ msgs, ¬(x.Content = Content ∧ x.From = From)) ∨
    (∃ pre m post, msgs = pre ++ m :: post ∧
      (m.Content = Content ∧ m.From = From) ∧
      (∀ x ∈ pre, ¬(x.Content = Content ∧ x.From = From)) ∧
      removeMessage From Content msgs = pre ++ post) := by
  induction msgs with
  | nil => exact Or.inl ⟨rfl, by simp⟩
  | cons x rest ih =>
    by_cases hx : x.Content = Content ∧ x.From = From
    · refine Or.inr ⟨[], x, rest, by simp, hx, by simp, ?_⟩
      simp [removeMessage, hx.1, hx.2]
    · rcases ih with ⟨heq, hall⟩ | ⟨pre, m, post, hsplit, hm, hpre, heq⟩
      · refine Or.inl ⟨?_, ?_⟩
        · simp only [removeMessage, if_neg hx]
          rw [heq]
        · intro y hy
          rcases List.mem_cons.1 hy with h | h
          · exact h ▸ hx
          · exact hall y h
      · refine Or.inr ⟨x :: pre, m, post, by simp [hsplit], hm, ?_, ?_⟩
        · intro y hy
          rcases List.mem_cons.1 hy with h | h
          · exact h ▸ hx
          · exact hpre y h
        · simp only [removeMessage, if_neg hx]
          rw [heq]
          simp

/-! ### Helper lemmas about trimming, the state machine and the loader -/

lemma trimChars_eq_rdrop (l : List Char) :
    trimChars l = List.rdropWhile isSpaceChar (l.dropWhile isSpaceChar) := rfl

lemma trimChars_idem (l : List Char) : trimChars (trimChars l) = trimChars l := by
  rw [trimChars_eq_rdrop, trimChars_eq_rdrop]
  have hA : (l.dropWhile isSpaceChar).dropWhile isSpaceChar = l.dropWhile isSpaceChar :=
    List.dropWhile_idempotent isSpaceChar l
  have hpre := List.rdropWhile_prefix isSpaceChar (l.dropWhile isSpaceChar)
  have hlen := hpre.length_le
  have ht : (List.rdropWhile isSpaceChar (l.dropWhile isSpaceChar)).dropWhile isSpaceChar
      = List.rdropWhile isSpaceChar (l.dropWhile isSpaceChar) := by
    rw [List.dropWhile_eq_self_iff]
    intro hl
    have h0 := hpre.getElem hl
    simp only [List.get_eq_getElem, h0]
    have := List.dropWhile_eq_self_iff.mp hA (lt_of_lt_of_le hl hlen)
    simpa using this
  rw [ht, List.rdropWhile_idempotent]

lemma TrimSpace_idem (s : String) : TrimSpace (TrimSpace s) = TrimSpace s := by
  show String.mk (trimChars (String.mk (trimChars s.data)).data) = String.mk (trimChars s.data)
  exact congrArg String.mk (trimChars_idem s.data)

lemma navModel_username (m : Model) (key : String) :
    (navModel m key).username = m.username := by
  delta navModel
  by_cases h1 : key = "j" ∨ key = "down" ∨ key = "k" ∨ key = "up" ∨ key = "d" ∨
      key = "u" ∨ key = "g" ∨ key = "G"
  · rw [if_pos h1]
  rw [if_neg h1]
  by_cases h2 : key = "o"
  · rw [if_pos h2]
  rw [if_neg h2]
  by_cases h3 : key = "backspace"
  · rw [if_pos h3]
    by_cases h3a : m.state = "projects" ∧ m.inProjectsList = false
    · rw [if_pos h3a]
    · rw [if_neg h3a]
  rw [if_neg h3]
  by_cases h4 : key = "b"
  · rw [if_pos h4]
  rw [if_neg h4]
  by_cases h5 : key = "p"
  · rw [if_pos h5]
  rw [if_neg h5]
  by_cases h6 : key = "c"
  · rw [if_pos h6]
  rw [if_neg h6]
  by_cases h7 : key = "m"
  · rw [if_pos h7]
  rw [if_neg h7]
  by_cases h8 : key = "enter"
  · rw [if_pos h8]
    by_cases h8a : m.state = "projects" ∧ m.inProjectsList = true
    · rw [if_pos h8a]
      cases m.projectsPosts.get? m.listIndex <;> rfl
    · rw [if_neg h8a]
  rw [if_neg h8]
  by_cases h9 : m.state = "projects" ∧ m.inProjectsList = true
  · rw [if_pos h9]
    cases atoi key with
    | none => rfl
    | some num =>
      dsimp only
      by_cases h10 : 0 ≤ num ∧ num < (m.projectsPosts.length : Int)
      · rw [if_pos h10]
      · rw [if_neg h10]
  · rw [if_neg h9]

lemma updateGlobal_username (lu : Nat → String → Nat) (m : Model) (key : String) :
    (updateGlobal lu m key).model.username = m.username := by
  unfold updateGlobal
  split
  · rfl
  · dsimp only
    split
    · exact navModel_username m key
    · exact navModel_username m key

lemma updateGlobal_submitted (lu : Nat → String → Nat) (m : Model) (key : String) :
    (updateGlobal lu m key).submitted = [] := by
  unfold updateGlobal
  split
  · rfl
  · rfl

lemma updateMessages_username (ta ti : String → String → String) (m : Model)
    (key : String) (h : m.username ≠ "") :
    (updateMessages ta ti m key).model.username ≠ "" := by
  unfold updateMessages
  dsimp only
  repeat' split
  all_goals simp_all

lemma updateMessages_submitted_sender (ta ti : String → String → String) (m : Model)
    (key : String) :
    ∀ p ∈ (updateMessages ta ti m key).submitted, p.1 = m.username := by
  unfold updateMessages
  dsimp only
  repeat' split
  all_goals simp_all

lemma loadStep_titles_nonempty (acc : List Projects) (text : String)
    (h : ∀ p ∈ acc, p.ProjectTitle ≠ "") :
    ∀ p ∈ loadStep acc text, p.ProjectTitle ≠ "" := by
  unfold loadStep
  dsimp only
  split
  · exact h
  · split
    · intro p hp
      rcases List.mem_append.1 hp with hp | hp
      · exact h p hp
      · simp only [List.mem_singleton] at hp
        subst hp
        assumption
    · exact h

lemma loadProjects_titles_go (texts : List String) :
    ∀ acc : List Projects, (∀ p ∈ acc, p.ProjectTitle ≠ "") →
      ∀ p ∈ texts.foldl loadStep acc, p.ProjectTitle ≠ "" := by
  induction texts with
  | nil => intro acc h; simpa using h
  | cons t rest ih =>
    intro acc h
    rw [List.foldl_cons]
    exact ih (loadStep acc t) (loadStep_titles_nonempty acc t h)

/-! ### Claim theorems: session state machine and project loader -/

/-- C6 counterexample.  With the body field holding " hi " (which trims to
the non-empty "hi"), ctrl+s calls submit with the TRIMMED body "hi", not
with the body field value " hi ". -/
theorem compose_submit_passes_trimmed_not_raw_body :
    (update (fun s k => s ++ k) (fun s k => s ++ k) (fun i _ => i)
      { state := "messages", messageSent := false, editingName := false,
        username := "anonymous", messageInput := " hi ", nameInput := "",
        inProjectsList := true, selectedPost := none, listIndex := 0,
        projectsPosts := [] } "ctrl+s").submitted = [("anonymous", "hi")] ∧
    [(("anonymous" : String), ("hi" : String))]
      ≠ [(("anonymous" : String), (" hi " : String))] := by
  decide

/-- C6 (amended).  In Compose(EditingBody): if the body trims to empty,
ctrl+s submits nothing and leaves the session unchanged; if it trims to
non-empty, ctrl+s submits exactly once with the current display name and
the trimmed body, clears the body field and sets the sent flag.  Every
submission made by this key is non-empty and trim-normalised, so the
compose flow never submits an empty or whitespace-only body. -/
theorem compose_submit_validation (ta ti : String → String → String)
    (lu : Nat → String → Nat) (m : Model)
    (hstate : m.state = "messages") (hsent : m.messageSent = false)
    (hedit : m.editingName = false) :
    (TrimSpace m.messageInput = "" →
      update ta ti lu m "ctrl+s" = { model := m, submitted := [], quit := false }) ∧
    (TrimSpace m.messageInput ≠ "" →
      update ta ti lu m "ctrl+s"
        = { model := { m with messageSent := true, messageInput := "" },
            submitted := [(m.username, TrimSpace m.messageInput)], quit := false }) ∧
    (∀ p ∈ (update ta ti lu m "ctrl+s").submitted,
      p.2 ≠ "" ∧ TrimSpace p.2 = p.2) := by
  have hcond : m.state = "messages" ∧ m.messageSent = false := ⟨hstate, hsent⟩
  refine ⟨?_, ?_, ?_⟩
  · intro htrim
    simp [update, updateMessages, hcond, hedit, htrim]
  · intro htrim
    simp [update, updateMessages, hcond, hedit, htrim]
  · intro p hp
    by_cases htrim : TrimSpace m.messageInput = ""
    · have h1 : update ta ti lu m "ctrl+s"
          = { model := m, submitted := [], quit := false } := by
        simp [update, updateMessages, hcond, hedit, htrim]
      rw [h1] at hp
      simp at hp
    · have h2 : update ta ti lu m "ctrl+s"
          = { model := { m with messageSent := true, messageInput := "" },
              submitted := [(m.username, TrimSpace m.messageInput)],
              quit := false } := by
        simp [update, updateMessages, hcond, hedit, htrim]
      rw [h2] at hp
      simp only [List.mem_singleton] at hp
      subst hp
      exact ⟨htrim, TrimSpace_idem m.messageInput⟩

/-- C6 witness: a body of "  hello  " trims to "hello" and is submitted
exactly once with the session's display name. -/
theorem compose_submit_validation_witness :
    update (fun s k => s ++ k) (fun s k => s ++ k) (fun i _ => i)
      { state := "messages", messageSent := false, editingName := false,
        username := "anonymous", messageInput := "  hello  ", nameInput := "",
        inProjectsList := true, selectedPost := none, listIndex := 0,
        projectsPosts := [] } "ctrl+s"
      = { model :=
            { state := "messages", messageSent := true, editingName := false,
              username := "anonymous", messageInput := "", nameInput := "",
              inProjectsList := true, selectedPost := none, listIndex := 0,
              projectsPosts := [] },
          submitted := [("anonymous", "hello")], quit := false } := by
  have h := (compose_submit_validation (fun s k => s ++ k) (fun s k => s ++ k)
      (fun i _ => i)
      { state := "messages", messageSent := false, editingName := false,
        username := "anonymous", messageInput := "  hello  ", nameInput := "",
        inProjectsList := true, selectedPost := none, listIndex := 0,
        projectsPosts := [] } rfl rfl rfl).2.1 (by decide)
  exact h.trans (by decide)

/-- C7 counterexample.  In Compose(EditingBody) the navigation key "o"
does not switch to Home: it is captured as body text and the session stays
in the messages state. -/
theorem compose_editing_captures_navigation_keys :
    (update (fun s k => s ++ k) (fun s k => s ++ k) (fun i _ => i)
      { state := "messages", messageSent := false, editingName := false,
        username := "anonymous", messageInput := "", nameInput := "",
        inProjectsList := true, selectedPost := none, listIndex := 0,
        projectsPosts := [] } "o").model.state = "messages" ∧
    (update (fun s k => s ++ k) (fun s k => s ++ k) (fun i _ => i)
      { state := "messages", messageSent := false, editingName := false,
        username := "anonymous", messageInput := "", nameInput := "",
        inProjectsList := true, selectedPost := none, listIndex := 0,
        projectsPosts := [] } "o").model.messageInput = "o" ∧
    ("messages" : String) ≠ "home" := by
  decide

/-- C7 (amended).  From every session state EXCEPT active compose editing
(state "messages" with the sent flag clear, where keys are captured as
text input), each navigation key immediately switches the session: o to
home, p to the projects list, c to contact, b to blog, and m to the
compose screen with the sent flag and name-editing flag reset. -/
theorem navigation_keys_switch_state (ta ti : String → String → String)
    (lu : Nat → String → Nat) (m : Model)
    (h : ¬(m.state = "messages" ∧ m.messageSent = false)) :
    (update ta ti lu m "o").model.state = "home" ∧
    ((update ta ti lu m "p").model.state = "projects" ∧
      (update ta ti lu m "p").model.inProjectsList = true) ∧
    (update ta ti lu m "c").model.state = "contact" ∧
    (update ta ti lu m "b").model.state = "blog" ∧
    ((update ta ti lu m "m").model.state = "messages" ∧
      (update ta ti lu m "m").model.messageSent = false ∧
      (update ta ti lu m "m").model.editingName = false) := by
  refine ⟨?_, ⟨?_, ?_⟩, ?_, ?_, ?_, ?_, ?_⟩ <;>
    simp [update, updateGlobal, navModel, h]

/-- C7 witness: from the initial session state (whose `state` field is the
Go zero value), every navigation key switches as described. -/
theorem navigation_keys_switch_state_witness :
    (update (fun s _ => s) (fun s _ => s) (fun i _ => i)
      (initialModel "alice" []) "o").model.state = "home" ∧
    ((update (fun s _ => s) (fun s _ => s) (fun i _ => i)
      (initialModel "alice" []) "p").model.state = "projects" ∧
      (update (fun s _ => s) (fun s _ => s) (fun i _ => i)
        (initialModel "alice" []) "p").model.inProjectsList = true) ∧
    (update (fun s _ => s) (fun s _ => s) (fun i _ => i)
      (initialModel "alice" []) "c").model.state = "contact" ∧
    (update (fun s _ => s) (fun s _ => s) (fun i _ => i)
      (initialModel "alice" []) "b").model.state = "blog" ∧
    ((update (fun s _ => s) (fun s _ => s) (fun i _ => i)
      (initialModel "alice" []) "m").model.state = "messages" ∧
      (update (fun s _ => s) (fun s _ => s) (fun i _ => i)
        (initialModel "alice" []) "m").model.messageSent = false ∧
      (update (fun s _ => s) (fun s _ => s) (fun i _ => i)
        (initialModel "alice" []) "m").model.editingName = false) := by
  exact navigation_keys_switch_state (fun s _ => s) (fun s _ => s) (fun i _ => i)
    (initialModel "alice" []) (by decide)

/-- C8 counterexample.  The claim's line rule keeps any line after the
first TWO; the code keeps empty lines only from the fourth line on
(`i > 2`).  On the record "a\nTitle: T\n\nb" the code drops the empty
third line and loads body "a\nb", while the claim's rule keeps it and
yields body "a\n\nb". -/
theorem loadProjects_line_rule_off_by_one :
    loadProjects "a\nTitle: T\n\nb"
      = [{ ProjectTitle := "T", ProjectContent := "a\nb", ProjectNumber := 0 }] ∧
    loadProjectsSpec "a\nTitle: T\n\nb"
      = [{ ProjectTitle := "T", ProjectContent := "a\n\nb", ProjectNumber := 0 }] ∧
    loadProjects "a\nTitle: T\n\nb" ≠ loadProjectsSpec "a\nTitle: T\n\nb" := by
  decide

/-- C8 (amended).  Loading splits on the literal "---"; `Title:` lines set
the title, `Number:` lines parse an integer with failures defaulting to
zero, all other non-empty lines (or any line after the first THREE)
accumulate as the trimmed body, and records with an empty title are
discarded without affecting their neighbours.  The claim's concrete blob
loads exactly records ("A",1,"Hello") and ("B",2,"World"); a failed
number parse defaults to zero; a title-less record between two titled
ones is dropped while both neighbours survive; and every loaded record
has a non-empty title. -/
theorem loadProjects_parsing :
    loadProjects "Title: A\nNumber: 1\nHello\n---Title: B\nNumber: 2\nWorld\n"
      = [{ ProjectTitle := "A", ProjectContent := "Hello", ProjectNumber := 1 },
         { ProjectTitle := "B", ProjectContent := "World", ProjectNumber := 2 }] ∧
    loadProjects "Title: C\nNumber: notanumber\nBody"
      = [{ ProjectTitle := "C", ProjectContent := "Body", ProjectNumber := 0 }] ∧
    loadProjects "Title: A\nHello\n---no title record\n---Title: B\nWorld"
      = [{ ProjectTitle := "A", ProjectContent := "Hello", ProjectNumber := 0 },
         { ProjectTitle := "B", ProjectContent := "World", ProjectNumber := 0 }] ∧
    (∀ data : String, ∀ p ∈ loadProjects data, p.ProjectTitle ≠ "") := by
  refine ⟨by decide, by decide, by decide, ?_⟩
  intro data
  exact loadProjects_titles_go (Split data "---") [] (by simp)

/-- C8 witness: the discard rule applied to the first record loaded from
the claim's blob. -/
theorem loadProjects_parsing_witness :
    ({ ProjectTitle := "A", ProjectContent := "Hello", ProjectNumber := 1 } :
      Projects).ProjectTitle ≠ "" := by
  exact loadProjects_parsing.2.2.2
    "Title: A\nNumber: 1\nHello\n---Title: B\nNumber: 2\nWorld\n"
    { ProjectTitle := "A", ProjectContent := "Hello", ProjectNumber := 1 }
    (by decide)

/-- C10.  The display name is non-empty at all times: it starts as the
connection's username or "anonymous" when that is empty, every step of the
state machine preserves its non-emptiness (a name edit is committed only
when the trimmed name field is non-empty), and every submission carries
the display name as its sender. -/
theorem display_name_always_nonempty :
    (∀ (user : String) (posts : List Projects),
      (initialModel user posts).username ≠ "") ∧
    (∀ (ta ti : String → String → String) (lu : Nat → String → Nat)
        (m : Model) (key : String), m.username ≠ "" →
      ((update ta ti lu m key).model.username ≠ "" ∧
        ∀ p ∈ (update ta ti lu m key).submitted, p.1 ≠ "")) := by
  constructor
  · intro user posts
    by_cases h : user = "" <;> simp [initialModel, h]
  · intro ta ti lu m key h
    constructor
    · by_cases hc : m.state = "messages" ∧ m.messageSent = false
      · simpa [update, hc] using updateMessages_username ta ti m key h
      · rw [update, if_neg hc, updateGlobal_username]
        exact h
    · intro p hp
      by_cases hc : m.state = "messages" ∧ m.messageSent = false
      · rw [update, if_pos hc] at hp
        have := updateMessages_submitted_sender ta ti m key p hp
        rw [this]
        exact h
      · rw [update, if_neg hc, updateGlobal_submitted] at hp
        simp at hp

/-- C10 witness: an empty connection username becomes "anonymous", which
survives a step and stamps the submission made by ctrl+s. -/
theorem display_name_always_nonempty_witness :
    ((initialModel "" []).username ≠ "") ∧
    ((update (fun s k => s ++ k) (fun s k => s ++ k) (fun i _ => i)
      { state := "messages", messageSent := false, editingName := false,
        username := "anonymous", messageInput := "hi", nameInput := "",
        inProjectsList := true, selectedPost := none, listIndex := 0,
        projectsPosts := [] } "ctrl+s").model.username ≠ "" ∧
      ∀ p ∈ (update (fun s k => s ++ k) (fun s k => s ++ k) (fun i _ => i)
        { state := "messages", messageSent := false, editingName := false,
          username := "anonymous", messageInput := "hi", nameInput := "",
          inProjectsList := true, selectedPost := none, listIndex := 0,
          projectsPosts := [] } "ctrl+s").submitted, p.1 ≠ "") := by
  refine ⟨display_name_always_nonempty.1 "" [], ?_⟩
  exact display_name_always_nonempty.2 (fun s k => s ++ k) (fun s k => s ++ k)
    (fun i _ => i)
    { state := "messages", messageSent := false, editingName := false,
      username := "anonymous", messageInput := "hi", nameInput := "",
      inProjectsList := true, selectedPost := none, listIndex := 0,
      projectsPosts := [] } "ctrl+s" (by decide)

end SshSite
